import Mathlib

/- Verification development for the clickhouse_fdw metadata-cache subsystem
   (src/clickhousedb_adjust.c): the per-object and per-column option caches,
   the table engine option parsing, cache population and cache invalidation.

   Modelling conventions:
   * Oids are natural numbers.
   * C byte buffers are lists of characters; a buffer read as a C string is
     its content before the first NUL byte.  C strings passed in from the
     host never contain an interior NUL, which theorems state as an
     explicit hypothesis where it matters.
   * The host hash tables are association lists; HASH_ENTER on a missing
     key prepends, HASH_FIND scans, HASH_REMOVE filters.
   * elog(ERROR, ...) aborts the current operation; the caches, which live
     in process memory, survive the abort.  Operations therefore return
     the cache alongside an Except value, or propagate the error before
     any cache write happens (which is what the source does).
-/

namespace CHFdw

/-- Catalog object identifiers (Oid). -/
abbrev Oid := Nat

/-- NAMEDATALEN from the PostgreSQL headers: 64. -/
def NAMEDATALEN : Nat := 64

/-- The NUL terminator byte. -/
def NUL : Char := Char.ofNat 0

/-- Content of a byte buffer read as a C string: everything before the
    first NUL. -/
def cstrTake : List Char → List Char
  | [] => []
  | c :: rest => if c = NUL then [] else c :: cstrTake rest

/-- Read a buffer as the Lean string before the first NUL. -/
def cstrOf (b : List Char) : String := ⟨cstrTake b⟩

/-- strncpy(dest, src, n): copy at most n bytes of the C string at src into
    the start of dest, NUL-padding up to n bytes; bytes of dest from
    position n on keep their old value.  (Writes beyond dest are clipped;
    the source code only writes within the modelled buffer.) -/
def strncpyList (dest src : List Char) (n : Nat) : List Char :=
  ((cstrTake src).take n
      ++ List.replicate (n - ((cstrTake src).take n).length) NUL).take dest.length
    ++ dest.drop n

/-- strcpy(dest, src): copy the C string at src, terminator included; bytes
    of dest past the terminator keep their old value. -/
def strcpyList (dest src : List Char) : List Char :=
  (cstrTake src ++ [NUL]).take dest.length ++ dest.drop ((cstrTake src).length + 1)

/-- dest[i] = 0: write one NUL byte at index i. -/
def pokeNul (dest : List Char) (i : Nat) : List Char := dest.set i NUL

/-- index(3): position of the first occurrence of c, none when absent. -/
def cindex (c : Char) : List Char → Option Nat
  | [] => none
  | x :: xs => if x = c then some 0 else (cindex c xs).map (· + 1)

/-- rindex(3): position of the last occurrence of c, none when absent. -/
def crindex (c : Char) : List Char → Option Nat
  | [] => none
  | x :: xs =>
    match crindex c xs with
    | some i => some (i + 1)
    | none => if x = c then some 0 else none

/-- custom_object_type from clickhousedb_fdw.h (the values the source uses). -/
inductive custom_object_type where
  | CF_USUAL
  | CF_ISTORE_SUM
  | CF_ISTORE_TYPE
  | CF_ISTORE_ARR
  | CF_ISTORE_COL
deriving DecidableEq

/-- Remote table engine kinds (ch_table_engine).  The source only ever
    assigns CH_COLLAPSING_MERGE_TREE; the first constructor stands for the
    zero-initialised default of the fpinfo struct. -/
inductive ch_engine_kind where
  | CH_ENGINE_DEFAULT
  | CH_COLLAPSING_MERGE_TREE
deriving DecidableEq

/-- CustomObjectDef: the cf_type tag plus the custom_name buffer.
    custom_name = none models the buffer never having been written
    (the source writes it only in the CF_ISTORE_SUM case). -/
structure CustomObjectDef where
  cf_type : custom_object_type
  custom_name : Option String
deriving DecidableEq

/-- CustomColumnInfo: one entry of the per-column cache.  The colname and
    signfield byte buffers are modelled by their C-string content. -/
structure CustomColumnInfo where
  relid : Oid
  varattno : Nat
  table_engine : ch_engine_kind
  coltype : custom_object_type
  colname : String
  signfield : String
deriving DecidableEq

/-- The two catalog classes the source passes to getExtensionOfObject. -/
inductive CatalogObjectClass where
  | ProcedureRelationId
  | TypeRelationId
deriving DecidableEq

/-- The host-catalog queries the source performs: is_builtin,
    getExtensionOfObject, get_extension_name, SearchSysCache1(PROCOID)
    (procName, none = invalid tuple), RelationGetDescr (columnsOf: ordered
    (attname, atttypid), attnums 1..natts) and GetForeignColumnOptions
    (columnOptions).  A none from getExtensionOfObject models InvalidOid;
    get_extension_name may return NULL (none) for an unknown extension Oid. -/
structure Catalog where
  is_builtin : Oid → Bool
  getExtensionOfObject : CatalogObjectClass → Oid → Option Oid
  get_extension_name : Oid → Option String
  procName : Oid → Option String
  columnsOf : Oid → List (String × Oid)
  columnOptions : Oid → Nat → List (String × String)

/-- The error exits the source can take.  invalidEngineFormat is
    elog(ERROR, "invalid format of ClickHouse engine"); cacheLookupFailed is
    elog(ERROR, "cache lookup failed for function %u"); nullPointerArithmetic
    marks the undefined pointer arithmetic the C code performs when exactly
    one of index()/rindex() returns NULL (no claim exercises it). -/
inductive ChError where
  | invalidEngineFormat
  | cacheLookupFailed (oid : Oid)
  | nullPointerArithmetic
deriving DecidableEq

/-- custom_objects_cache: Oid-keyed hash table of CustomObjectDef. -/
abbrev ObjCache := List (Oid × CustomObjectDef)

/-- Key of custom_columns_cache: (relid, varattno). -/
abbrev ColKey := Oid × Nat

/-- custom_columns_cache: (relid, varattno)-keyed hash table of
    CustomColumnInfo. -/
abbrev ColCache := List (ColKey × CustomColumnInfo)

/-- HASH_FIND on custom_objects_cache. -/
def objFind : ObjCache → Oid → Option CustomObjectDef
  | [], _ => none
  | (k, v) :: rest, oid => if k = oid then some v else objFind rest oid

/-- HASH_ENTER on a key known to be absent. -/
def objEnter (oc : ObjCache) (oid : Oid) (v : CustomObjectDef) : ObjCache :=
  (oid, v) :: oc

/-- HASH_FIND on custom_columns_cache. -/
def colFind : ColCache → ColKey → Option CustomColumnInfo
  | [], _ => none
  | (k, v) :: rest, key => if k = key then some v else colFind rest key

/-- HASH_ENTER on a key known to be absent. -/
def colEnter (cc : ColCache) (k : ColKey) (v : CustomColumnInfo) : ColCache :=
  (k, v) :: cc

/-- HASH_REMOVE of one key. -/
def colRemove : ColCache → ColKey → ColCache
  | [], _ => []
  | (k, v) :: rest, key =>
    if k = key then colRemove rest key else (k, v) :: colRemove rest key

/-- get_extension_name(getExtensionOfObject(cls, oid)) as the source
    composes them. -/
def lookupExtName (cat : Catalog) (cls : CatalogObjectClass) (oid : Oid) :
    Option String :=
  match cat.getExtensionOfObject cls oid with
  | none => none
  | some ext => cat.get_extension_name ext

/-- checkForCustomFunction: builtins are rejected before any cache access;
    a cached entry is returned as is; otherwise an entry is entered with
    cf_type = CF_USUAL, upgraded to (CF_ISTORE_SUM, "sumMap") when the
    owning extension is istore and pg_proc says the name is "sum".  A failed
    syscache lookup aborts by elog(ERROR) after the CF_USUAL entry has been
    entered. -/
def checkForCustomFunction (cat : Catalog) (funcid : Oid) (oc : ObjCache) :
    ObjCache × Except ChError (Option CustomObjectDef) :=
  if cat.is_builtin funcid then (oc, .ok none)
  else
    match objFind oc funcid with
    | some entry => (oc, .ok (some entry))
    | none =>
      if lookupExtName cat .ProcedureRelationId funcid = some "istore" then
        match cat.procName funcid with
        | none =>
          (objEnter oc funcid ⟨.CF_USUAL, none⟩, .error (.cacheLookupFailed funcid))
        | some proname =>
          let entry : CustomObjectDef :=
            if proname = "sum" then ⟨.CF_ISTORE_SUM, some "sumMap"⟩
            else ⟨.CF_USUAL, none⟩
          (objEnter oc funcid entry, .ok (some entry))
      else
        (objEnter oc funcid ⟨.CF_USUAL, none⟩, .ok (some ⟨.CF_USUAL, none⟩))

/-- checkForCustomType: builtins rejected before any cache access; a cached
    entry returned as is; otherwise enters CF_ISTORE_TYPE when the owning
    extension is istore and CF_USUAL otherwise.  No error exit. -/
def checkForCustomType (cat : Catalog) (typeoid : Oid) (oc : ObjCache) :
    ObjCache × Option CustomObjectDef :=
  if cat.is_builtin typeoid then (oc, none)
  else
    match objFind oc typeoid with
    | some entry => (oc, some entry)
    | none =>
      let entry : CustomObjectDef :=
        if lookupExtName cat .TypeRelationId typeoid = some "istore" then
          ⟨.CF_ISTORE_TYPE, none⟩
        else ⟨.CF_USUAL, none⟩
      (objEnter oc typeoid entry, some entry)

/-- The engine name the source compares against. -/
def expectedEngineName : String := "collapsingmergetree"

/-- strncasecmp(val, "collapsingmergetree", strlen("collapsingmergetree")) == 0:
    the first 19 bytes of val, lowered, equal the expected name (which is
    already lower case).  When val is shorter the comparison fails at its
    terminator, which the take models. -/
def engineNameMatches (val : String) : Bool :=
  decide ((val.toList.take expectedEngineName.toList.length).map Char.toLower
    = expectedEngineName.toList)

/-- The ch_table_sign_field byte buffer. -/
abbrev SignBuf := List Char

/-- The sign-field buffer of a freshly allocated (palloc0-zeroed) fpinfo.
    The source writes at indices up to NAMEDATALEN, so the modelled buffer
    has NAMEDATALEN + 1 bytes. -/
def initSignBuf : SignBuf := List.replicate (NAMEDATALEN + 1) NUL

/-- One iteration of the engine-option branch of ApplyCustomTableOptions on
    the value of an `engine` option:
    * name does not match: nothing happens;
    * it matches: ch_table_engine becomes CH_COLLAPSING_MERGE_TREE and
      start = index(val, '(') / end = rindex(val, ')') are inspected:
      - start == end (as pointers: both NULL, or impossibly the same byte):
        strcpy "sign" into the buffer;
      - end - start > NAMEDATALEN: elog(ERROR, "invalid format ...");
      - otherwise strncpy(buf, start + 1, end - start - 1) and
        buf[end - start] = 0.
    A NULL on exactly one side, or end before start, makes the C code do
    arithmetic on a NULL or negative pointer difference; modelled as the
    nullPointerArithmetic error. -/
def parseEngineValue (eng : ch_engine_kind) (buf : SignBuf) (val : String) :
    Except ChError (ch_engine_kind × SignBuf) :=
  if engineNameMatches val then
    match cindex '(' val.toList, crindex ')' val.toList with
    | none, none =>
      .ok (.CH_COLLAPSING_MERGE_TREE, strcpyList buf "sign".toList)
    | some s, some e =>
      if s = e then .ok (.CH_COLLAPSING_MERGE_TREE, strcpyList buf "sign".toList)
      else if (e : Int) - (s : Int) > (NAMEDATALEN : Int) then
        .error .invalidEngineFormat
      else if e < s then .error .nullPointerArithmetic
      else
        .ok (.CH_COLLAPSING_MERGE_TREE,
          pokeNul (strncpyList buf (val.toList.drop (s + 1)) (e - s - 1)) (e - s))
    | _, _ => .error .nullPointerArithmetic
  else .ok (eng, buf)

/-- The foreach loop of ApplyCustomTableOptions over the table's options:
    every option named `engine` is parsed, all others are ignored; an error
    aborts the whole call. -/
def engineFold : ch_engine_kind → SignBuf → List (String × String) →
    Except ChError (ch_engine_kind × SignBuf)
  | eng, buf, [] => .ok (eng, buf)
  | eng, buf, (dname, dval) :: rest =>
    if dname = "engine" then
      match parseEngineValue eng buf dval with
      | .ok st => engineFold st.1 st.2 rest
      | .error err => .error err
    else engineFold eng buf rest

/-- The engine-parsing phase of ApplyCustomTableOptions, run on a fresh
    fpinfo. -/
def parseTableEngine (opts : List (String × String)) :
    Except ChError (ch_engine_kind × SignBuf) :=
  engineFold .CH_ENGINE_DEFAULT initSignBuf opts

/-- strncpy(colname, v, NAMEDATALEN) followed by colname[NAMEDATALEN-1] = 0:
    the stored C string is v cut to NAMEDATALEN - 1 characters. -/
def truncName (s : String) : String :=
  ⟨s.toList.take (NAMEDATALEN - 1)⟩

/-- The per-column scan state of the options loop: the colname buffer and
    the local cf_type variable (initialised to CF_ISTORE_ARR). -/
structure ColOptState where
  colname : String
  cf_type : custom_object_type
deriving DecidableEq

/-- One iteration of the foreach over GetForeignColumnOptions:
    column_name overwrites colname (truncated), arrays/keys set the local
    cf_type, anything else is ignored. -/
def applyColumnOption (st : ColOptState) (opt : String × String) : ColOptState :=
  if opt.1 = "column_name" then { st with colname := truncName opt.2 }
  else if opt.1 = "arrays" then { st with cf_type := .CF_ISTORE_ARR }
  else if opt.1 = "keys" then { st with cf_type := .CF_ISTORE_COL }
  else st

/-- Construction of one new CustomColumnInfo entry, exactly as the body of
    the attnum loop fills it in: colname starts as the catalog attname,
    coltype starts as CF_USUAL, the column options are folded over, and
    coltype becomes the scanned cf_type only when the column's type lookup
    produced a CF_ISTORE_TYPE entry. -/
def buildColumnEntry (relid : Oid) (attnum : Nat) (eng : ch_engine_kind)
    (sign : String) (attname : String) (opts : List (String × String))
    (odef : Option CustomObjectDef) : CustomColumnInfo :=
  let st := opts.foldl applyColumnOption ⟨attname, .CF_ISTORE_ARR⟩
  { relid := relid
    varattno := attnum
    table_engine := eng
    coltype :=
      match odef with
      | some d => if d.cf_type = .CF_ISTORE_TYPE then st.cf_type else .CF_USUAL
      | none => .CF_USUAL
    colname := st.colname
    signfield := sign }

/-- The attnum loop of ApplyCustomTableOptions: for each column, an entry
    already present under (relid, attnum) is skipped; otherwise the
    column's type is looked up (mutating the object cache) and the new
    entry is entered. -/
def processColumns (cat : Catalog) (relid : Oid) (eng : ch_engine_kind)
    (sign : String) : Nat → List (String × Oid) → ObjCache × ColCache →
    ObjCache × ColCache
  | _, [], st => st
  | attnum, col :: rest, st =>
    match colFind st.2 (relid, attnum) with
    | some _ => processColumns cat relid eng sign (attnum + 1) rest st
    | none =>
      let p := checkForCustomType cat col.2 st.1
      processColumns cat relid eng sign (attnum + 1) rest
        (p.1, colEnter st.2 (relid, attnum)
          (buildColumnEntry relid attnum eng sign col.1
            (cat.columnOptions relid attnum) p.2))

/-- ApplyCustomTableOptions: parse the table's engine option into
    (ch_table_engine, ch_table_sign_field) on a fresh fpinfo, then populate
    the column cache for every column of the relation.  The engine parse
    happens before any cache write, so an engine error leaves both caches
    untouched and is propagated. -/
def ApplyCustomTableOptions (cat : Catalog) (tableOptions : List (String × String))
    (relid : Oid) (oc : ObjCache) (cc : ColCache) :
    Except ChError (ObjCache × ColCache) :=
  match parseTableEngine tableOptions with
  | .error err => .error err
  | .ok st =>
    .ok (processColumns cat relid st.1 (cstrOf st.2) 1 (cat.columnsOf relid) (oc, cc))

/-- GetCustomColumnInfo: pure HASH_FIND on the column cache. -/
def GetCustomColumnInfo (relid : Oid) (varattno : Nat) (cc : ColCache) :
    Option CustomColumnInfo :=
  colFind cc (relid, varattno)

/-- invalidate_custom_columns_cache: walk the column cache and HASH_REMOVE
    every entry (snapshot of the keys, then removal). -/
def invalidate_custom_columns_cache (cc : ColCache) : ColCache :=
  (cc.map Prod.fst).foldl colRemove cc

/-- The invariant claimed for the column cache: a CollapsingVersioned entry
    carries a non-empty sign field. -/
def signInvariant (cc : ColCache) : Prop :=
  ∀ k e, colFind cc k = some e →
    e.table_engine = .CH_COLLAPSING_MERGE_TREE → e.signfield ≠ ""

/- Concrete catalogs used to instantiate the theorems. -/

/-- A catalog whose objects are all builtin. -/
def catBuiltin : Catalog where
  is_builtin := fun _ => true
  getExtensionOfObject := fun _ _ => none
  get_extension_name := fun _ => none
  procName := fun _ => none
  columnsOf := fun _ => []
  columnOptions := fun _ _ => []

/-- A catalog with one table (one column of a builtin type, no column
    options). -/
def catOneCol : Catalog where
  is_builtin := fun _ => true
  getExtensionOfObject := fun _ _ => none
  get_extension_name := fun _ => none
  procName := fun _ => none
  columnsOf := fun _ => [("c1", 23)]
  columnOptions := fun _ _ => []

/-- A 70-character column name, longer than NAMEDATALEN - 1. -/
def longColName : String := ⟨List.replicate 70 'a'⟩

/-- One table whose single column carries an overlong column_name option. -/
def catLongColName : Catalog where
  is_builtin := fun _ => true
  getExtensionOfObject := fun _ _ => none
  get_extension_name := fun _ => none
  procName := fun _ => none
  columnsOf := fun _ => [("c1", 23)]
  columnOptions := fun _ _ => [("column_name", longColName)]

/-- A catalog where no object is builtin and nothing belongs to an
    extension. -/
def catNoExt : Catalog where
  is_builtin := fun _ => false
  getExtensionOfObject := fun _ _ => none
  get_extension_name := fun _ => none
  procName := fun _ => none
  columnsOf := fun _ => []
  columnOptions := fun _ _ => []

/-- A catalog where every object belongs to the istore extension (Oid 7777)
    and every function is named "sum". -/
def catIstoreSum : Catalog where
  is_builtin := fun _ => false
  getExtensionOfObject := fun _ _ => some 7777
  get_extension_name := fun e => if e = 7777 then some "istore" else none
  procName := fun _ => some "sum"
  columnsOf := fun _ => []
  columnOptions := fun _ _ => []

/-- The object cache produced by looking Oid 60000 up as a type under
    catIstoreSum: it holds one CF_ISTORE_TYPE entry. -/
def ocIstoreType : ObjCache := (checkForCustomType catIstoreSum 60000 []).1

/- Supporting lemmas. -/

theorem cstrTake_append (xs ys : List Char) (h : NUL ∉ xs) :
    cstrTake (xs ++ ys) = xs ++ cstrTake ys := by
  induction xs with
  | nil => simp
  | cons a t ih =>
    have ha : a ≠ NUL := fun hc => h (by simp [hc])
    have ht : NUL ∉ t := fun hc => h (by simp [hc])
    simp [cstrTake, ha, ih ht]

theorem cstrTake_cons_nul (ys : List Char) : cstrTake (NUL :: ys) = [] := by
  simp [cstrTake]

theorem cstrTake_append_nul (xs ys : List Char) (h : NUL ∉ xs) :
    cstrTake (xs ++ NUL :: ys) = xs := by
  rw [cstrTake_append xs (NUL :: ys) h, cstrTake_cons_nul]
  simp

theorem cindex_append_cons (c : Char) (l₁ l₂ : List Char) (h : c ∉ l₁) :
    cindex c (l₁ ++ c :: l₂) = some l₁.length := by
  induction l₁ with
  | nil => simp [cindex]
  | cons a t ih =>
    have ha : a ≠ c := fun hc => h (by simp [hc])
    have ht : c ∉ t := fun hc => h (by simp [hc])
    simp [cindex, ha, ih ht]

theorem crindex_append_last (c : Char) (l : List Char) :
    crindex c (l ++ [c]) = some l.length := by
  induction l with
  | nil => simp [crindex]
  | cons a t ih => simp [crindex, ih]

theorem setAppend (l₁ l₂ : List Char) (i : Nat) (c : Char) :
    (l₁ ++ l₂).set (l₁.length + i) c = l₁ ++ l₂.set i c := by
  induction l₁ with
  | nil => simp
  | cons a t ih =>
    have : t.length + 1 + i = (t.length + i) + 1 := by omega
    simp [this, List.set, ih]

theorem set_replicate_nul (k i : Nat) :
    (List.replicate k NUL).set i NUL = List.replicate k NUL := by
  induction k generalizing i with
  | zero => simp
  | succ k ih =>
    cases i with
    | zero => simp [List.replicate_succ, List.set]
    | succ j => simp [List.replicate_succ, List.set, ih]

theorem colFind_colRemove_self (cc : ColCache) (k : ColKey) :
    colFind (colRemove cc k) k = none := by
  induction cc with
  | nil => simp [colRemove, colFind]
  | cons e rest ih =>
    obtain ⟨k', v⟩ := e
    by_cases h : k' = k
    · simp [colRemove, h, ih]
    · simp [colRemove, h, colFind, ih]

theorem colFind_colRemove_none (cc : ColCache) (k k' : ColKey)
    (h : colFind cc k = none) : colFind (colRemove cc k') k = none := by
  induction cc with
  | nil => simp [colRemove, colFind]
  | cons e rest ih =>
    obtain ⟨k₀, v⟩ := e
    by_cases hk : k₀ = k
    · simp [colFind, hk] at h
    · simp [colFind, hk] at h
      by_cases hr : k₀ = k'
      · simp [colRemove, hr, ih h]
      · simp [colRemove, hr, colFind, hk, ih h]

theorem colFind_foldl_colRemove_none (ks : List ColKey) (acc : ColCache)
    (k : ColKey) (h : colFind acc k = none) :
    colFind (ks.foldl colRemove acc) k = none := by
  induction ks generalizing acc with
  | nil => simpa using h
  | cons k₀ rest ih => exact ih _ (colFind_colRemove_none _ _ _ h)

theorem colFind_foldl_colRemove_mem (ks : List ColKey) (acc : ColCache)
    (k : ColKey) (h : k ∈ ks) : colFind (ks.foldl colRemove acc) k = none := by
  induction ks generalizing acc with
  | nil => cases h
  | cons k₀ rest ih =>
    rw [List.foldl_cons]
    rcases List.mem_cons.mp h with h₀ | h₀
    · subst h₀
      exact colFind_foldl_colRemove_none rest (colRemove acc k) k
        (colFind_colRemove_self acc k)
    · exact ih (colRemove acc k₀) h₀

theorem colFind_not_mem_keys (cc : ColCache) (k : ColKey)
    (h : k ∉ cc.map Prod.fst) : colFind cc k = none := by
  induction cc with
  | nil => simp [colFind]
  | cons e rest ih =>
    obtain ⟨k₀, v⟩ := e
    have hk : k₀ ≠ k := fun hc => h (by simp [hc])
    have ht : k ∉ rest.map Prod.fst := fun hc => h (by simp [hc])
    simp [colFind, hk, ih ht]

theorem colFind_processColumns_mono (cat : Catalog) (relid : Oid)
    (eng : ch_engine_kind) (sign : String) :
    ∀ (cols : List (String × Oid)) (attnum : Nat) (st : ObjCache × ColCache)
      (k : ColKey) (v : CustomColumnInfo), colFind st.2 k = some v →
      colFind (processColumns cat relid eng sign attnum cols st).2 k = some v := by
  intro cols
  induction cols with
  | nil =>
    intro attnum st k v h
    simpa [processColumns] using h
  | cons c rest ih =>
    intro attnum st k v h
    cases hf : colFind st.2 (relid, attnum) with
    | some w =>
      simp only [processColumns]
      rw [hf]
      exact ih (attnum + 1) st k v h
    | none =>
      simp only [processColumns]
      rw [hf]
      apply ih (attnum + 1)
      have hk : (relid, attnum) ≠ k := by
        intro hc
        rw [← hc] at h
        rw [hf] at h
        cases h
      simpa [colEnter, colFind, hk] using h

theorem processColumns_key_present (cat : Catalog) (relid : Oid)
    (eng : ch_engine_kind) (sign : String) :
    ∀ (cols : List (String × Oid)) (attnum : Nat) (st : ObjCache × ColCache)
      (i : Nat), i < cols.length →
      (colFind (processColumns cat relid eng sign attnum cols st).2
        (relid, attnum + i)).isSome = true := by
  intro cols
  induction cols with
  | nil =>
    intro attnum st i hi
    simp at hi
  | cons c rest ih =>
    intro attnum st i hi
    cases i with
    | zero =>
      cases hf : colFind st.2 (relid, attnum) with
      | some w =>
        simp only [processColumns]
        rw [hf]
        have hm := colFind_processColumns_mono cat relid eng sign rest (attnum + 1)
          st (relid, attnum) w hf
        simpa using congrArg Option.isSome hm
      | none =>
        simp only [processColumns]
        rw [hf]
        have hself : colFind (colEnter st.2 (relid, attnum)
            (buildColumnEntry relid attnum eng sign c.1
              (cat.columnOptions relid attnum)
              (checkForCustomType cat c.2 st.1).2)) (relid, attnum)
            = some (buildColumnEntry relid attnum eng sign c.1
              (cat.columnOptions relid attnum)
              (checkForCustomType cat c.2 st.1).2) := by
          simp [colEnter, colFind]
        have hm := colFind_processColumns_mono cat relid eng sign rest (attnum + 1)
          ((checkForCustomType cat c.2 st.1).1,
            colEnter st.2 (relid, attnum)
              (buildColumnEntry relid attnum eng sign c.1
                (cat.columnOptions relid attnum)
                (checkForCustomType cat c.2 st.1).2))
          (relid, attnum) _ hself
        simpa using congrArg Option.isSome hm
    | succ j =>
      have hj : j < rest.length := by simpa using hi
      have harith : attnum + (j + 1) = (attnum + 1) + j := by omega
      cases hf : colFind st.2 (relid, attnum) with
      | some w =>
        simp only [processColumns]
        rw [hf, harith]
        exact ih (attnum + 1) st j hj
      | none =>
        simp only [processColumns]
        rw [hf, harith]
        exact ih (attnum + 1) _ j hj

theorem processColumns_all_present_id (cat : Catalog) (relid : Oid)
    (eng : ch_engine_kind) (sign : String) :
    ∀ (cols : List (String × Oid)) (attnum : Nat) (st : ObjCache × ColCache),
      (∀ i, i < cols.length → (colFind st.2 (relid, attnum + i)).isSome = true) →
      processColumns cat relid eng sign attnum cols st = st := by
  intro cols
  induction cols with
  | nil => intro attnum st _; rfl
  | cons c rest ih =>
    intro attnum st h
    have h0 : (colFind st.2 (relid, attnum)).isSome = true := by
      simpa using h 0 (by simp)
    cases hf : colFind st.2 (relid, attnum) with
    | none => rw [hf] at h0; cases h0
    | some w =>
      simp only [processColumns]
      rw [hf]
      apply ih (attnum + 1) st
      intro i hi
      have := h (i + 1) (by simpa using hi)
      rwa [show attnum + (i + 1) = (attnum + 1) + i from by omega] at this

theorem processColumns_signInvariant (cat : Catalog) (relid : Oid)
    (eng : ch_engine_kind) (sign : String)
    (hsig : eng = .CH_COLLAPSING_MERGE_TREE → sign ≠ "") :
    ∀ (cols : List (String × Oid)) (attnum : Nat) (st : ObjCache × ColCache),
      signInvariant st.2 →
      signInvariant (processColumns cat relid eng sign attnum cols st).2 := by
  intro cols
  induction cols with
  | nil =>
    intro attnum st h
    simpa [processColumns] using h
  | cons c rest ih =>
    intro attnum st h
    cases hf : colFind st.2 (relid, attnum) with
    | some w =>
      simp only [processColumns]
      rw [hf]
      exact ih (attnum + 1) st h
    | none =>
      simp only [processColumns]
      rw [hf]
      apply ih (attnum + 1)
      intro k e hfe hengine
      by_cases hk : (relid, attnum) = k
      · subst hk
        simp [colEnter, colFind] at hfe
        rw [← hfe] at hengine
        rw [← hfe]
        show sign ≠ ""
        exact hsig hengine
      · simp [colEnter, colFind, hk] at hfe
        exact h k e hfe hengine

theorem parseTableEngine_single (v : String) :
    parseTableEngine [("engine", v)] = parseEngineValue .CH_ENGINE_DEFAULT initSignBuf v := by
  unfold parseTableEngine engineFold
  simp only [if_pos rfl]
  cases h : parseEngineValue .CH_ENGINE_DEFAULT initSignBuf v with
  | ok st => simp [engineFold]
  | error e => simp

/-- Symbolic evaluation of the engine-value parse on a value of the shape
    name(arg), where name case-insensitively starts with
    "collapsingmergetree", contains no '(' and the strings carry no
    interior NUL: the parenthesis distance check rejects exactly the
    arguments longer than NAMEDATALEN - 1 bytes, and otherwise the sign
    buffer receives the argument's bytes followed by NULs. -/
theorem parseEngineValue_concat (eng : ch_engine_kind) (name arg : String)
    (hpre : (name.toList.take expectedEngineName.toList.length).map Char.toLower
      = expectedEngineName.toList)
    (hnp : '(' ∉ name.toList)
    (_hnn : NUL ∉ name.toList)
    (hna : NUL ∉ arg.toList) :
    parseEngineValue eng initSignBuf (name ++ "(" ++ arg ++ ")")
      = if arg.toList.length + 1 > NAMEDATALEN then .error .invalidEngineFormat
        else .ok (.CH_COLLAPSING_MERGE_TREE,
          arg.toList ++ List.replicate (NAMEDATALEN + 1 - arg.toList.length) NUL) := by
  have hv : (name ++ "(" ++ arg ++ ")").toList
      = name.toList ++ '(' :: (arg.toList ++ [')']) := by
    show ((name.data ++ ['(']) ++ arg.data) ++ [')']
      = name.data ++ '(' :: (arg.data ++ [')'])
    simp
  have hexp : expectedEngineName.toList.length = 19 := rfl
  have hlen : 19 ≤ name.toList.length := by
    have h19 := congrArg List.length hpre
    simp only [List.length_map, List.length_take, hexp] at h19
    omega
  have hmatch : engineNameMatches (name ++ "(" ++ arg ++ ")") = true := by
    simp only [engineNameMatches, decide_eq_true_eq]
    rw [hv, List.take_append_eq_append_take]
    have h0 : expectedEngineName.toList.length - name.toList.length = 0 := by
      rw [hexp]; omega
    rw [h0]
    simpa using hpre
  have hs : cindex '(' ((name ++ "(" ++ arg ++ ")").toList) = some name.toList.length := by
    rw [hv]
    exact cindex_append_cons '(' name.toList (arg.toList ++ [')']) hnp
  have he : crindex ')' ((name ++ "(" ++ arg ++ ")").toList)
      = some (name.toList.length + (arg.toList.length + 1)) := by
    rw [hv]
    have : name.toList ++ '(' :: (arg.toList ++ [')'])
        = (name.toList ++ '(' :: arg.toList) ++ [')'] := by simp
    rw [this, crindex_append_last]
    simp
  unfold parseEngineValue
  rw [hmatch, hs, he]
  simp only [if_pos rfl]
  have hm_ne : ¬ (name.toList.length = name.toList.length + (arg.toList.length + 1)) := by
    omega
  rw [if_neg hm_ne]
  by_cases hbound : arg.toList.length + 1 > NAMEDATALEN
  · have hgt : ((name.toList.length + (arg.toList.length + 1) : Nat) : Int)
        - (name.toList.length : Nat) > (NAMEDATALEN : Int) := by
      push_cast
      unfold NAMEDATALEN at hbound ⊢
      omega
    rw [if_pos hgt, if_pos hbound]
    simp
  · have hle : ¬ (((name.toList.length + (arg.toList.length + 1) : Nat) : Int)
        - (name.toList.length : Nat) > (NAMEDATALEN : Int)) := by
      push_cast
      unfold NAMEDATALEN at hbound ⊢
      omega
    rw [if_neg hle]
    have hlt : ¬ (name.toList.length + (arg.toList.length + 1) < name.toList.length) := by
      omega
    rw [if_neg hlt, if_neg hbound]
    have hdist1 : name.toList.length + (arg.toList.length + 1) - name.toList.length - 1
        = arg.toList.length := by omega
    have hdist2 : name.toList.length + (arg.toList.length + 1) - name.toList.length
        = arg.toList.length + 1 := by omega
    rw [hdist1, hdist2]
    have hdrop : (name ++ "(" ++ arg ++ ")").toList.drop (name.toList.length + 1)
        = arg.toList ++ [')'] := by
      rw [hv]
      have h1 : name.toList ++ '(' :: (arg.toList ++ [')'])
          = (name.toList ++ ['(']) ++ (arg.toList ++ [')']) := by simp
      have h2 : name.toList.length + 1 = (name.toList ++ ['(']).length := by simp
      rw [h1, h2, List.drop_left]
    rw [hdrop]
    have hct : cstrTake (arg.toList ++ [')']) = arg.toList ++ [')'] := by
      rw [cstrTake_append arg.toList [')'] hna]
      have : (')' : Char) ≠ NUL := by decide
      simp [cstrTake, this]
    have hstrn : strncpyList initSignBuf (arg.toList ++ [')']) arg.toList.length
        = arg.toList ++ List.replicate (NAMEDATALEN + 1 - arg.toList.length) NUL := by
      unfold strncpyList
      rw [hct, List.take_left]
      simp only [Nat.sub_self, List.replicate_zero, List.append_nil]
      have hl : initSignBuf.length = NAMEDATALEN + 1 := by
        simp [initSignBuf]
      rw [hl]
      have hargle : arg.toList.length ≤ NAMEDATALEN + 1 := by
        unfold NAMEDATALEN at hbound ⊢
        omega
      rw [List.take_of_length_le hargle]
      show arg.toList ++ (List.replicate (NAMEDATALEN + 1) NUL).drop arg.toList.length
        = arg.toList ++ List.replicate (NAMEDATALEN + 1 - arg.toList.length) NUL
      rw [List.drop_replicate]
    rw [hstrn]
    unfold pokeNul
    have hset : (arg.toList ++ List.replicate (NAMEDATALEN + 1 - arg.toList.length) NUL).set
        (arg.toList.length + 1) NUL
        = arg.toList ++ List.replicate (NAMEDATALEN + 1 - arg.toList.length) NUL := by
      rw [setAppend arg.toList _ 1 NUL, set_replicate_nul]
    rw [hset]
    simp

/- Claim theorems. -/

/-- C5: invalidation completeness.  After invalidate_custom_columns_cache
    runs (the handler ignores which attribute changed, and the statement
    covers the empty cache), GetCustomColumnInfo returns none for every
    (relid, varattno) key, in particular every key present beforehand. -/
theorem C5_invalidation_completeness (cc : ColCache) (relid : Oid) (attno : Nat) :
    GetCustomColumnInfo relid attno (invalidate_custom_columns_cache cc) = none := by
  unfold GetCustomColumnInfo invalidate_custom_columns_cache
  by_cases h : (relid, attno) ∈ cc.map Prod.fst
  · exact colFind_foldl_colRemove_mem _ _ _ h
  · exact colFind_foldl_colRemove_none _ _ _ (colFind_not_mem_keys _ _ h)

/-- C8: builtin exclusion.  For an identifier classified as builtin, both
    checkForCustomFunction and checkForCustomType return NULL (none) and
    leave the object cache exactly as it was: nothing is read into the
    result, entered, or modified. -/
theorem C8_builtin_exclusion (cat : Catalog) (oid : Oid) (oc : ObjCache)
    (h : cat.is_builtin oid = true) :
    checkForCustomFunction cat oid oc = (oc, .ok none)
    ∧ checkForCustomType cat oid oc = (oc, none) := by
  constructor
  · simp [checkForCustomFunction, h]
  · simp [checkForCustomType, h]

/-- C8 witness: a builtin Oid is rejected even when the cache holds an
    entry under that very Oid. -/
theorem C8_builtin_exclusion_witness :
    checkForCustomFunction catBuiltin 5 [(5, ⟨.CF_ISTORE_SUM, some "sumMap"⟩)]
        = ([(5, ⟨.CF_ISTORE_SUM, some "sumMap"⟩)], .ok none)
    ∧ checkForCustomType catBuiltin 5 [(5, ⟨.CF_ISTORE_SUM, some "sumMap"⟩)]
        = ([(5, ⟨.CF_ISTORE_SUM, some "sumMap"⟩)], none) :=
  C8_builtin_exclusion catBuiltin 5 [(5, ⟨.CF_ISTORE_SUM, some "sumMap"⟩)] rfl

/-- C6: column-kind gating.  When the type lookup run for a column does not
    report CF_ISTORE_TYPE (it reports none for a builtin type, or an entry
    of another cf_type), the entry built for the column has
    coltype = CF_USUAL, whatever arrays/keys options the column declares. -/
theorem C6_column_kind_gating (cat : Catalog) (atttypid : Oid) (oc : ObjCache)
    (relid : Oid) (attnum : Nat) (eng : ch_engine_kind) (sign : String)
    (attname : String) (opts : List (String × String))
    (h : ((checkForCustomType cat atttypid oc).2.map CustomObjectDef.cf_type)
      ≠ some .CF_ISTORE_TYPE) :
    (buildColumnEntry relid attnum eng sign attname opts
      (checkForCustomType cat atttypid oc).2).coltype = .CF_USUAL := by
  unfold buildColumnEntry
  cases hod : (checkForCustomType cat atttypid oc).2 with
  | none => rfl
  | some d =>
    rw [hod] at h
    have hd : d.cf_type ≠ .CF_ISTORE_TYPE := fun hc => h (by simp [hc])
    simp [hd]

/-- C6 witness: a non-extension type with both arrays and keys options
    still gives CF_USUAL. -/
theorem C6_column_kind_gating_witness :
    (buildColumnEntry 1 1 .CH_ENGINE_DEFAULT "sign" "c1"
      [("arrays", "true"), ("keys", "true")]
      (checkForCustomType catNoExt 40000 []).2).coltype = .CF_USUAL :=
  C6_column_kind_gating catNoExt 40000 [] 1 1 .CH_ENGINE_DEFAULT "sign" "c1"
    [("arrays", "true"), ("keys", "true")] (by decide)

/-- C9: function override resolution on a first (uncached) lookup of a
    non-builtin function, under a consistent catalog (the syscache row for
    the function exists whenever its owning extension is istore): the call
    returns a defined entry, which is (CF_ISTORE_SUM, "sumMap") exactly
    when the owning extension is istore and the function's name is "sum",
    and a CF_USUAL entry in every other case (no owning extension,
    unrecognized extension, or another name). -/
theorem C9_function_override (cat : Catalog) (funcid : Oid) (oc : ObjCache)
    (hb : cat.is_builtin funcid = false)
    (hm : objFind oc funcid = none)
    (hc : lookupExtName cat .ProcedureRelationId funcid = some "istore" →
      (cat.procName funcid).isSome = true) :
    (checkForCustomFunction cat funcid oc).2 =
      .ok (some
        (if lookupExtName cat .ProcedureRelationId funcid = some "istore"
            ∧ cat.procName funcid = some "sum"
          then ⟨.CF_ISTORE_SUM, some "sumMap"⟩
          else ⟨.CF_USUAL, none⟩)) := by
  unfold checkForCustomFunction
  rw [hb]
  simp only [Bool.false_eq_true, if_false]
  rw [hm]
  by_cases he : lookupExtName cat .ProcedureRelationId funcid = some "istore"
  · cases hp : cat.procName funcid with
    | none => exact absurd (hc he) (by simp [hp])
    | some n =>
      by_cases hn : n = "sum"
      · simp [he, hp, hn]
      · simp [he, hp, hn]
  · simp [he]

/-- C9 witness: an istore function named "sum" resolves to the sumMap
    rewrite entry. -/
theorem C9_function_override_witness :
    (checkForCustomFunction catIstoreSum 50000 []).2
      = .ok (some ⟨.CF_ISTORE_SUM, some "sumMap"⟩) := by
  have h := C9_function_override catIstoreSum 50000 [] rfl rfl (by decide)
  have hcond : lookupExtName catIstoreSum .ProcedureRelationId 50000 = some "istore"
      ∧ catIstoreSum.procName 50000 = some "sum" := ⟨rfl, rfl⟩
  rw [h, if_pos hcond]

/-- C10: the two lookups share custom_objects_cache, keyed by the bare Oid.
    Any cached entry under a non-builtin Oid is returned unchanged by both
    checkForCustomFunction and checkForCustomType, with no cache mutation;
    the two calls may even run against different catalogs (nothing but the
    builtin classification is consulted), so an entry cached by the type
    lookup is served to the function lookup and vice versa. -/
theorem C10_shared_object_cache (cat₁ cat₂ : Catalog) (oid : Oid) (oc : ObjCache)
    (e : CustomObjectDef) (hf : objFind oc oid = some e)
    (h₁ : cat₁.is_builtin oid = false) (h₂ : cat₂.is_builtin oid = false) :
    checkForCustomFunction cat₁ oid oc = (oc, .ok (some e))
    ∧ checkForCustomType cat₂ oid oc = (oc, some e) := by
  constructor
  · unfold checkForCustomFunction
    rw [h₁]
    simp only [Bool.false_eq_true, if_false]
    rw [hf]
  · unfold checkForCustomType
    rw [h₂]
    simp only [Bool.false_eq_true, if_false]
    rw [hf]

/-- C10 witness: Oid 60000 is first cached by the type lookup as
    CF_ISTORE_TYPE; the function lookup on the same Oid then returns that
    same entry although the catalog presents 60000 as an istore function
    named "sum" (which a fresh function lookup would classify as
    CF_ISTORE_SUM). -/
theorem C10_shared_object_cache_witness :
    checkForCustomFunction catIstoreSum 60000 ocIstoreType
        = (ocIstoreType, .ok (some ⟨.CF_ISTORE_TYPE, none⟩))
    ∧ checkForCustomType catIstoreSum 60000 ocIstoreType
        = (ocIstoreType, some ⟨.CF_ISTORE_TYPE, none⟩) :=
  C10_shared_object_cache catIstoreSum catIstoreSum 60000 ocIstoreType
    ⟨.CF_ISTORE_TYPE, none⟩ (by decide) rfl rfl

/-- C2: engine values of the shape name(arg), with name a
    case-insensitive match of the "collapsingmergetree" prefix (and the
    strings free of interior NUL, as C strings are).  An argument of at
    most NAMEDATALEN - 1 = 63 bytes (the longest name storable in the
    NAMEDATALEN column-name buffer) parses successfully and the sign field
    becomes exactly the argument; a longer argument makes
    ApplyCustomTableOptions fail with the configuration error
    "invalid format of ClickHouse engine". -/
theorem C2_sign_arg_bounded (name arg : String)
    (hpre : (name.toList.take expectedEngineName.toList.length).map Char.toLower
      = expectedEngineName.toList)
    (hnp : '(' ∉ name.toList)
    (hnn : NUL ∉ name.toList)
    (hna : NUL ∉ arg.toList) :
    (arg.toList.length ≤ NAMEDATALEN - 1 →
      (parseTableEngine [("engine", name ++ "(" ++ arg ++ ")")]).toOption.map
        (fun st => (st.1, cstrOf st.2)) = some (.CH_COLLAPSING_MERGE_TREE, arg))
    ∧ (NAMEDATALEN - 1 < arg.toList.length →
      ∀ (cat : Catalog) (relid : Oid) (oc : ObjCache) (cc : ColCache),
        ApplyCustomTableOptions cat [("engine", name ++ "(" ++ arg ++ ")")] relid oc cc
          = .error .invalidEngineFormat) := by
  have hval := parseEngineValue_concat .CH_ENGINE_DEFAULT name arg hpre hnp hnn hna
  constructor
  · intro hle
    have hnb : ¬ (arg.toList.length + 1 > NAMEDATALEN) := by
      unfold NAMEDATALEN at hle ⊢
      omega
    rw [parseTableEngine_single, hval, if_neg hnb]
    have hrep : NAMEDATALEN + 1 - arg.toList.length
        = (NAMEDATALEN - arg.toList.length) + 1 := by
      unfold NAMEDATALEN at hle ⊢
      omega
    rw [hrep, List.replicate_succ]
    show some (ch_engine_kind.CH_COLLAPSING_MERGE_TREE,
        cstrOf (arg.toList ++ NUL :: List.replicate (NAMEDATALEN - arg.toList.length) NUL))
      = some (.CH_COLLAPSING_MERGE_TREE, arg)
    unfold cstrOf
    rw [cstrTake_append_nul arg.toList _ hna]
    rfl
  · intro hgt cat relid oc cc
    have hb : arg.toList.length + 1 > NAMEDATALEN := by
      unfold NAMEDATALEN at hgt ⊢
      omega
    unfold ApplyCustomTableOptions
    rw [parseTableEngine_single, hval, if_pos hb]

/-- C2 witness: "CollapsingMergeTree(version)" parses with sign field
    "version"; the hypotheses hold for name "CollapsingMergeTree" and
    argument "version" of length 7 ≤ 63. -/
theorem C2_sign_arg_bounded_witness :
    ("version".toList.length ≤ NAMEDATALEN - 1 →
      (parseTableEngine [("engine", "CollapsingMergeTree" ++ "(" ++ "version" ++ ")")]).toOption.map
        (fun st => (st.1, cstrOf st.2)) = some (.CH_COLLAPSING_MERGE_TREE, "version"))
    ∧ (NAMEDATALEN - 1 < "version".toList.length →
      ∀ (cat : Catalog) (relid : Oid) (oc : ObjCache) (cc : ColCache),
        ApplyCustomTableOptions cat
          [("engine", "CollapsingMergeTree" ++ "(" ++ "version" ++ ")")] relid oc cc
          = .error .invalidEngineFormat) :=
  C2_sign_arg_bounded "CollapsingMergeTree" "version"
    (by decide) (by decide) (by decide) (by decide)

/-- C1 counterexample: the claim says parsing "CollapsingMergeTree()"
    yields signFieldName "sign" exactly as if the parentheses were absent.
    It does not: index('(') and rindex(')') return different pointers, so
    the copy branch runs, copies end-start-1 = 0 bytes and writes a NUL at
    offset 1; on the zero-initialised fpinfo the sign field reads back as
    the empty string, not "sign". -/
theorem C1_empty_parens_counterexample :
    (parseTableEngine [("engine", "CollapsingMergeTree()")]).toOption.map
      (fun st => (st.1, cstrOf st.2)) ≠ some (.CH_COLLAPSING_MERGE_TREE, "sign") := by
  decide

/-- C1 (amended): parsing the engine option value "CollapsingMergeTree()"
    sets the engine kind to CH_COLLAPSING_MERGE_TREE, but the empty
    parentheses are not treated as absent: the empty argument is copied
    and the sign field becomes the empty string, unlike the value without
    parentheses, which gives "sign". -/
theorem C1_empty_parens_amended :
    (parseTableEngine [("engine", "CollapsingMergeTree()")]).toOption.map
        (fun st => (st.1, cstrOf st.2)) = some (.CH_COLLAPSING_MERGE_TREE, "")
    ∧ (parseTableEngine [("engine", "CollapsingMergeTree")]).toOption.map
        (fun st => (st.1, cstrOf st.2)) = some (.CH_COLLAPSING_MERGE_TREE, "sign") :=
  ⟨rfl, rfl⟩

/-- C7 counterexample: the claim says an overlong column_name option value
    makes ApplyCustomTableOptions raise a configuration error.  It does
    not: with a 70-character column_name the call succeeds and the stored
    colname is the value silently cut to NAMEDATALEN - 1 = 63 characters. -/
theorem C7_overlong_column_name_counterexample :
    (ApplyCustomTableOptions catLongColName [] 1 [] []).toOption.map
      (fun st => (GetCustomColumnInfo 1 1 st.2).map
        (fun e => e.colname))
      = some (some ⟨List.replicate 63 'a'⟩) := by
  rfl

/-- C7 (amended): a column_name value is never a configuration error; the
    stored colname is the value truncated to NAMEDATALEN - 1 characters
    (strncpy of NAMEDATALEN bytes followed by forcing a NUL at index
    NAMEDATALEN - 1), and ApplyCustomTableOptions returns ok whenever the
    engine parse does, whatever the columns declare. -/
theorem C7_column_name_truncation_amended (st : ColOptState) (v : String)
    (cat : Catalog) (opts : List (String × String)) (relid : Oid)
    (oc : ObjCache) (cc : ColCache) (est : ch_engine_kind × SignBuf)
    (h : parseTableEngine opts = .ok est) :
    applyColumnOption st ("column_name", v) = { st with colname := truncName v }
    ∧ (truncName v).toList = v.toList.take (NAMEDATALEN - 1)
    ∧ ApplyCustomTableOptions cat opts relid oc cc
        = .ok (processColumns cat relid est.1 (cstrOf est.2) 1
            (cat.columnsOf relid) (oc, cc)) := by
  refine ⟨rfl, rfl, ?_⟩
  unfold ApplyCustomTableOptions
  rw [h]

/-- C7 amended witness: the overlong column_name is truncated and the call
    returns ok. -/
theorem C7_column_name_truncation_amended_witness :
    applyColumnOption ⟨"c1", .CF_ISTORE_ARR⟩ ("column_name", longColName)
        = { colname := truncName longColName, cf_type := .CF_ISTORE_ARR }
    ∧ (truncName longColName).toList = longColName.toList.take (NAMEDATALEN - 1)
    ∧ ApplyCustomTableOptions catLongColName [] 1 [] []
        = .ok (processColumns catLongColName 1 .CH_ENGINE_DEFAULT
            (cstrOf initSignBuf) 1 (catLongColName.columnsOf 1) ([], [])) :=
  C7_column_name_truncation_amended ⟨"c1", .CF_ISTORE_ARR⟩ longColName
    catLongColName [] 1 [] [] (.CH_ENGINE_DEFAULT, initSignBuf) rfl

/-- C3 counterexample: the claim says every entry ever stored with
    tableEngineKind = CollapsingVersioned has a non-empty signFieldName.
    Applying table options with engine "CollapsingMergeTree()" inserts an
    entry with table_engine = CH_COLLAPSING_MERGE_TREE and an empty
    signfield, so the invariant does not hold of every insertion. -/
theorem C3_empty_sign_counterexample :
    (ApplyCustomTableOptions catOneCol [("engine", "CollapsingMergeTree()")] 1 [] []).toOption.map
      (fun st => (GetCustomColumnInfo 1 1 st.2).map
        (fun e => (e.table_engine, e.signfield)))
      = some (some (.CH_COLLAPSING_MERGE_TREE, "")) := by
  rfl

/-- C3 (amended): the invariant holds of every insertion except those made
    under a parsed engine state whose kind is CH_COLLAPSING_MERGE_TREE and
    whose sign field is empty (which the empty-parenthesis engine argument
    produces): if the column cache satisfies the invariant, a successful
    ApplyCustomTableOptions whose engine parse does not yield
    (CH_COLLAPSING_MERGE_TREE, "") preserves it. -/
theorem C3_sign_invariant_amended (cat : Catalog) (opts : List (String × String))
    (relid : Oid) (oc : ObjCache) (cc : ColCache) (oc' : ObjCache) (cc' : ColCache)
    (h0 : signInvariant cc)
    (hp : ApplyCustomTableOptions cat opts relid oc cc = .ok (oc', cc'))
    (hs : (parseTableEngine opts).toOption.map (fun st => (st.1, cstrOf st.2))
      ≠ some (.CH_COLLAPSING_MERGE_TREE, "")) :
    signInvariant cc' := by
  unfold ApplyCustomTableOptions at hp
  cases hpe : parseTableEngine opts with
  | error e => rw [hpe] at hp; cases hp
  | ok st =>
    rw [hpe] at hp
    have hpc : processColumns cat relid st.1 (cstrOf st.2) 1
        (cat.columnsOf relid) (oc, cc) = (oc', cc') := Except.ok.inj hp
    rw [hpe] at hs
    have hsig : st.1 = .CH_COLLAPSING_MERGE_TREE → cstrOf st.2 ≠ "" := by
      intro h1 h2
      have hmap : Option.map (fun st => (st.1, cstrOf st.2))
          (Except.ok st : Except ChError (ch_engine_kind × SignBuf)).toOption
          = some (st.1, cstrOf st.2) := rfl
      exact hs (by rw [hmap, h1, h2])
    have hinv := processColumns_signInvariant cat relid st.1 (cstrOf st.2) hsig
      (cat.columnsOf relid) 1 (oc, cc) h0
    rw [hpc] at hinv
    exact hinv

/-- C3 amended witness: applying "CollapsingMergeTree(v)" to an empty
    cache yields a cache satisfying the invariant. -/
theorem C3_sign_invariant_amended_witness :
    signInvariant [((1, 1), ⟨1, 1, .CH_COLLAPSING_MERGE_TREE, .CF_USUAL, "c1", "v"⟩)] :=
  C3_sign_invariant_amended catOneCol [("engine", "CollapsingMergeTree(v)")] 1 [] []
    [] [((1, 1), ⟨1, 1, .CH_COLLAPSING_MERGE_TREE, .CF_USUAL, "c1", "v"⟩)]
    (fun _ _ hfe => absurd hfe (by simp [colFind]))
    rfl
    (by decide)

/-- C4: ApplyCustomTableOptions is idempotent.  If a call on some caches
    returns ok with caches (oc', cc'), running the same call again on
    (oc', cc') returns ok with exactly the same caches: the engine parse is
    deterministic and the second column loop finds every (relid, attnum)
    key already present and skips it, touching neither cache. -/
theorem C4_apply_idempotent (cat : Catalog) (opts : List (String × String))
    (relid : Oid) (oc : ObjCache) (cc : ColCache) (oc' : ObjCache) (cc' : ColCache)
    (h : ApplyCustomTableOptions cat opts relid oc cc = .ok (oc', cc')) :
    ApplyCustomTableOptions cat opts relid oc' cc' = .ok (oc', cc') := by
  unfold ApplyCustomTableOptions at h ⊢
  cases hp : parseTableEngine opts with
  | error e => rw [hp] at h; cases h
  | ok st =>
    rw [hp] at h
    have hpc : processColumns cat relid st.1 (cstrOf st.2) 1
        (cat.columnsOf relid) (oc, cc) = (oc', cc') := Except.ok.inj h
    have hall : ∀ i, i < (cat.columnsOf relid).length →
        (colFind cc' (relid, 1 + i)).isSome = true := by
      intro i hi
      have hk := processColumns_key_present cat relid st.1 (cstrOf st.2)
        (cat.columnsOf relid) 1 (oc, cc) i hi
      rw [hpc] at hk
      exact hk
    have hid := processColumns_all_present_id cat relid st.1 (cstrOf st.2)
      (cat.columnsOf relid) 1 (oc', cc') hall
    show Except.ok (processColumns cat relid st.1 (cstrOf st.2) 1
      (cat.columnsOf relid) (oc', cc')) = Except.ok (oc', cc')
    rw [hid]

/-- C4 witness: a one-column table under engine "CollapsingMergeTree";
    re-applying on the caches the first call produced returns them
    unchanged. -/
theorem C4_apply_idempotent_witness :
    ApplyCustomTableOptions catOneCol [("engine", "CollapsingMergeTree")] 1
        [] [((1, 1), ⟨1, 1, .CH_COLLAPSING_MERGE_TREE, .CF_USUAL, "c1", "sign"⟩)]
      = .ok ([], [((1, 1), ⟨1, 1, .CH_COLLAPSING_MERGE_TREE, .CF_USUAL, "c1", "sign"⟩)]) :=
  C4_apply_idempotent catOneCol [("engine", "CollapsingMergeTree")] 1 [] []
    [] [((1, 1), ⟨1, 1, .CH_COLLAPSING_MERGE_TREE, .CF_USUAL, "c1", "sign"⟩)] rfl

end CHFdw
